import Mathlib

set_option maxRecDepth 100000

/-!
Verification of the Elephant signing core (`elephant.rs`).

Shallow embedding of `src/cynapse/neurons/elephant/elephant.rs`: a file-signing
library that appends a fixed 256-byte footer (64-byte ed25519 signature,
32-byte public key, 4-byte magic marker `"SIG!"`, 156 zero-padding bytes) to
arbitrary content.  Bytes are modelled as `List Nat`; the cryptographic
primitives (blake3 hashing, ed25519 sign/derive/decode/verify) are abstracted
into a `Scheme` structure whose fields carry exactly the length guarantees the
Rust types (`Signature` = 64 bytes, `VerifyingKey` = 32 bytes, blake3 `Hash` =
32 bytes) provide.
-/

namespace Elephant

/-- Rust constant `pub const FOOTER_SIZE: usize = 256;`. -/
def FOOTER_SIZE : Nat := 256

/-- Rust constant `pub const MAGIC: &[u8; 4] = b"SIG!";` — the bytes of `"SIG!"`. -/
def MAGIC : List Nat := [83, 73, 71, 33]

/-- Rust enum `pub enum SignError { Io(..), InvalidKey }` (the `Io` payload is dropped:
only the error class matters to the core). -/
inductive SignError where
  | IoError
  | InvalidKey
deriving DecidableEq

/-- Abstraction of the cryptographic primitives used by `elephant.rs`
(`blake3::Hasher`, `ed25519_dalek::{SigningKey, VerifyingKey, Signature}`).
The length fields reflect guarantees the Rust crate types give statically:
`blake3::Hash` is 32 bytes, `Signature::to_bytes` is `[u8; 64]`,
`VerifyingKey::to_bytes` is `[u8; 32]`. -/
structure Scheme where
  /-- Blake3 hash of a byte string (`Hasher::update` + `finalize`). -/
  hashB3 : List Nat → List Nat
  /-- Rust `SigningKey::sign(msg).to_bytes()`. -/
  edSign : List Nat → List Nat → List Nat
  /-- Rust `SigningKey::verifying_key().to_bytes()`. -/
  derivePk : List Nat → List Nat
  /-- Whether `VerifyingKey::from_bytes` succeeds on these 32 bytes. -/
  decodeOk : List Nat → Bool
  /-- Rust `VerifyingKey::verify(msg, sig).is_ok()` for a decodable key. -/
  edVerify : List Nat → List Nat → List Nat → Bool
  hash_len : ∀ c, (hashB3 c).length = 32
  sign_len : ∀ sk m, (edSign sk m).length = 64
  pk_len : ∀ sk, (derivePk sk).length = 32

/-- Rust struct `pub struct SignedFile { content: Vec<u8>, signature: [u8; 64],
public_key: [u8; 32] }` — the fixed-array types become length invariants. -/
structure SignedFile where
  content : List Nat
  signature : List Nat
  public_key : List Nat
  sig_len : signature.length = 64
  key_len : public_key.length = 32

/-- Rust `SignedFile::sign`: hash the content with blake3, sign the digest,
derive the public key. -/
def SignedFile.sign (E : Scheme) (content : List Nat) (sk : List Nat) :
    SignedFile where
  content := content
  signature := E.edSign sk (E.hashB3 content)
  public_key := E.derivePk sk
  sig_len := E.sign_len sk (E.hashB3 content)
  key_len := E.pk_len sk

/-- Rust `SignedFile::to_bytes`: `content ++ signature ++ public_key ++ MAGIC ++
[0u8; 156]`. -/
def SignedFile.to_bytes (s : SignedFile) : List Nat :=
  s.content ++ s.signature ++ s.public_key ++ MAGIC ++ List.replicate 156 0

/-- Rust `SignedFile::from_bytes`: reject inputs shorter than `FOOTER_SIZE`,
split off the 256-byte footer, check `footer[96..100] == MAGIC`, extract
`signature = footer[0..64]` and `public_key = footer[64..96]`. -/
def SignedFile.from_bytes (data : List Nat) : Option SignedFile :=
  if h : data.length < FOOTER_SIZE then
    none
  else if hm : ((data.drop (data.length - FOOTER_SIZE)).drop 96).take 4 = MAGIC then
    some
      { content := data.take (data.length - FOOTER_SIZE)
        signature := (data.drop (data.length - FOOTER_SIZE)).take 64
        public_key := ((data.drop (data.length - FOOTER_SIZE)).drop 64).take 32
        sig_len := by
          simp only [List.length_take, List.length_drop, FOOTER_SIZE] at *
          omega
        key_len := by
          simp only [List.length_take, List.length_drop, List.drop_drop,
            FOOTER_SIZE] at *
          omega }
  else
    none

/-- Rust `SignedFile::verify`: decode the public key (`InvalidKey` on failure),
re-hash the content, and return the boolean outcome of ed25519 verification. -/
def SignedFile.verify (E : Scheme) (s : SignedFile) : Except SignError Bool :=
  if E.decodeOk s.public_key then
    Except.ok (E.edVerify s.public_key (E.hashB3 s.content) s.signature)
  else
    Except.error SignError.InvalidKey

/-- Rust `SignedFile::is_signed`: length at least 256 and
`data[len-160 .. len-156] == MAGIC`. -/
def SignedFile.is_signed (data : List Nat) : Bool :=
  if data.length < FOOTER_SIZE then
    false
  else
    decide ((data.drop (data.length - 160)).take 4 = MAGIC)

/-- The three data fields of a `SignedFile`, for stating parse results without
the length proofs. -/
def SignedFile.fields (s : SignedFile) : List Nat × List Nat × List Nat :=
  (s.content, s.signature, s.public_key)

/-- A small concrete scheme instance, used to evaluate the theorems at
concrete inputs. -/
def toyScheme : Scheme where
  hashB3 := fun c => List.replicate 32 (c.length % 256)
  edSign := fun sk m => List.replicate 64 ((sk.length + m.length) % 256)
  derivePk := fun sk => List.replicate 32 (sk.length % 256)
  decodeOk := fun _ => true
  edVerify := fun _ _ _ => true
  hash_len := fun _ => by simp
  sign_len := fun _ _ => by simp
  pk_len := fun _ => by simp

lemma FOOTER_SIZE_eq : FOOTER_SIZE = 256 := rfl

lemma MAGIC_length : MAGIC.length = 4 := rfl

/-- Two `SignedFile`s with the same data fields are equal (the length fields
are proofs). -/
theorem SignedFile.ext' : ∀ {a b : SignedFile}, a.content = b.content →
    a.signature = b.signature → a.public_key = b.public_key → a = b := by
  intro a b h1 h2 h3
  cases a; cases b
  simp only at h1 h2 h3
  subst h1; subst h2; subst h3
  rfl

lemma length_to_bytes (s : SignedFile) :
    s.to_bytes.length = s.content.length + 256 := by
  simp [SignedFile.to_bytes, s.sig_len, s.key_len, MAGIC]

lemma to_bytes_drop_content (s : SignedFile) :
    s.to_bytes.drop s.content.length
      = s.signature ++ (s.public_key ++ (MAGIC ++ List.replicate 156 0)) := by
  simp only [SignedFile.to_bytes, List.append_assoc]
  exact List.drop_left _ _

lemma to_bytes_take_content (s : SignedFile) :
    s.to_bytes.take s.content.length = s.content := by
  simp only [SignedFile.to_bytes, List.append_assoc]
  exact List.take_left _ _

lemma footer_take_sig (s : SignedFile) :
    (s.signature ++ (s.public_key ++ (MAGIC ++ List.replicate 156 0))).take 64
      = s.signature :=
  List.take_left' s.sig_len

lemma footer_key (s : SignedFile) :
    ((s.signature ++ (s.public_key ++ (MAGIC ++ List.replicate 156 0))).drop 64).take 32
      = s.public_key := by
  rw [List.drop_left' s.sig_len, List.take_left' s.key_len]

lemma footer_magic (s : SignedFile) :
    ((s.signature ++ (s.public_key ++ (MAGIC ++ List.replicate 156 0))).drop 96).take 4
      = MAGIC := by
  rw [show s.signature ++ (s.public_key ++ (MAGIC ++ List.replicate 156 0))
        = (s.signature ++ s.public_key) ++ (MAGIC ++ List.replicate 156 0) from
      (List.append_assoc _ _ _).symm,
    List.drop_left' (by simp [s.sig_len, s.key_len]),
    List.take_left' MAGIC_length]

set_option maxRecDepth 8000 in
/-- Parsing the serialization of any `SignedFile` recovers it exactly. -/
theorem from_bytes_to_bytes (s : SignedFile) :
    SignedFile.from_bytes s.to_bytes = some s := by
  have hlen := length_to_bytes s
  have hidx : s.to_bytes.length - FOOTER_SIZE = s.content.length := by
    rw [hlen, FOOTER_SIZE_eq]; omega
  have hdrop : s.to_bytes.drop (s.to_bytes.length - FOOTER_SIZE)
      = s.signature ++ (s.public_key ++ (MAGIC ++ List.replicate 156 0)) := by
    rw [hidx]; exact to_bytes_drop_content s
  have hm : ((s.to_bytes.drop (s.to_bytes.length - FOOTER_SIZE)).drop 96).take 4
      = MAGIC := by
    rw [hdrop]; exact footer_magic s
  unfold SignedFile.from_bytes
  rw [dif_neg (by rw [FOOTER_SIZE_eq]; omega : ¬ s.to_bytes.length < FOOTER_SIZE),
    dif_pos hm]
  refine congrArg some (SignedFile.ext' ?_ ?_ ?_)
  · show s.to_bytes.take (s.to_bytes.length - FOOTER_SIZE) = s.content
    rw [hidx]; exact to_bytes_take_content s
  · show (s.to_bytes.drop (s.to_bytes.length - FOOTER_SIZE)).take 64 = s.signature
    rw [hdrop]; exact footer_take_sig s
  · show ((s.to_bytes.drop (s.to_bytes.length - FOOTER_SIZE)).drop 64).take 32
      = s.public_key
    rw [hdrop]; exact footer_key s

/-- C4: `to_bytes` emits exactly `content ++ signature(64) ++ publicKey(32) ++
magic(4) ++ 156 zero bytes`, and its length is always `len(content) + 256`. -/
theorem to_bytes_layout (s : SignedFile) :
    s.to_bytes = s.content ++ s.signature ++ s.public_key ++ MAGIC
        ++ List.replicate 156 0
    ∧ s.to_bytes.length = s.content.length + 256 :=
  ⟨rfl, length_to_bytes s⟩

/-- C9: `sign` signs the fixed 256-bit (32-byte) blake3 digest of the content,
not the raw content: the signature is `edSign sk (hash c)`, and it depends on
the content only through its digest. -/
theorem sign_hashes_then_signs (E : Scheme) (c c' sk : List Nat)
    (hc : E.hashB3 c = E.hashB3 c') :
    (SignedFile.sign E c sk).signature = E.edSign sk (E.hashB3 c)
    ∧ (E.hashB3 c).length = 32
    ∧ (SignedFile.sign E c sk).signature = (SignedFile.sign E c' sk).signature := by
  refine ⟨rfl, E.hash_len c, ?_⟩
  simp only [SignedFile.sign, hc]

/-- Witness for C9 at the toy scheme: `[1]` and `[2]` share a digest, hence a
signature. -/
theorem sign_hashes_then_signs_witness :
    (SignedFile.sign toyScheme [1] (List.replicate 32 3)).signature
        = toyScheme.edSign (List.replicate 32 3) (toyScheme.hashB3 [1])
    ∧ (toyScheme.hashB3 [1]).length = 32
    ∧ (SignedFile.sign toyScheme [1] (List.replicate 32 3)).signature
        = (SignedFile.sign toyScheme [2] (List.replicate 32 3)).signature :=
  sign_hashes_then_signs toyScheme [1] [2] (List.replicate 32 3) rfl

/-- C5: `verify` returns the `InvalidKey` error exactly when the public-key
bytes fail to decode; whenever they decode it returns `ok` of the ed25519
verification outcome (in particular `ok false`, never an error, on a
cryptographic mismatch). -/
theorem verify_error_classes (E : Scheme) (s : SignedFile) :
    (SignedFile.verify E s = Except.error SignError.InvalidKey
        ↔ E.decodeOk s.public_key = false)
    ∧ (SignedFile.verify E s
          = Except.ok (E.edVerify s.public_key (E.hashB3 s.content) s.signature)
        ↔ E.decodeOk s.public_key = true) := by
  unfold SignedFile.verify
  by_cases h : E.decodeOk s.public_key <;> simp [h]

/-- C1: signing then verifying with the matching key pair yields `Ok(true)`,
given that the scheme's verification accepts honestly produced signatures and
that derived public keys decode. -/
theorem verify_sign_ok (E : Scheme) (c sk : List Nat)
    (hdec : ∀ k, E.decodeOk (E.derivePk k) = true)
    (hver : ∀ k m, E.edVerify (E.derivePk k) m (E.edSign k m) = true) :
    SignedFile.verify E (SignedFile.sign E c sk) = Except.ok true := by
  unfold SignedFile.verify SignedFile.sign
  simp [hdec sk, hver sk]

/-- Witness for C1 at the toy scheme. -/
theorem verify_sign_ok_witness :
    SignedFile.verify toyScheme
        (SignedFile.sign toyScheme [1, 2] (List.replicate 32 9))
      = Except.ok true :=
  verify_sign_ok toyScheme [1, 2] (List.replicate 32 9)
    (fun _ => rfl) (fun _ _ => rfl)

set_option maxRecDepth 8000 in
/-- C2: parsing the serialization of a signed artifact succeeds and recovers
the original content exactly. -/
theorem round_trip (E : Scheme) (c sk : List Nat) :
    ∃ s, SignedFile.from_bytes (SignedFile.to_bytes (SignedFile.sign E c sk))
            = some s
      ∧ s.content = c :=
  ⟨SignedFile.sign E c sk, from_bytes_to_bytes _, rfl⟩

/-- Specification-side parser, following the wording of C3: absent exactly when
the input is shorter than 256 bytes or the 4 bytes at absolute offset
`len-160` (footer offset 96) differ from the magic marker; otherwise the
triple `(content, signature, publicKey)` cut at the stated offsets. -/
def parseSpec (data : List Nat) : Option (List Nat × List Nat × List Nat) :=
  if data.length < 256 then
    none
  else if (data.drop (data.length - 160)).take 4 ≠ MAGIC then
    none
  else
    some (data.take (data.length - 256),
      (data.drop (data.length - 256)).take 64,
      ((data.drop (data.length - 256)).drop 64).take 32)

lemma magic_offset_align (data : List Nat) (h : FOOTER_SIZE ≤ data.length) :
    (data.drop (data.length - FOOTER_SIZE)).drop 96
      = data.drop (data.length - 160) := by
  rw [List.drop_drop]
  congr 1
  rw [FOOTER_SIZE_eq] at *
  omega

/-- C3: `from_bytes` agrees with the specified parser: absent iff the input is
shorter than 256 bytes or the magic bytes mismatch, and otherwise the fields
are cut at exactly the specified offsets. -/
theorem from_bytes_correct (data : List Nat) :
    (SignedFile.from_bytes data).map SignedFile.fields = parseSpec data := by
  unfold SignedFile.from_bytes parseSpec
  by_cases h : data.length < FOOTER_SIZE
  · have h2 : data.length < 256 := h
    rw [dif_pos h, if_pos h2]
    rfl
  · have h2 : ¬ data.length < 256 := h
    have halign := magic_offset_align data (Nat.le_of_not_lt h)
    rw [dif_neg h, if_neg h2]
    by_cases hm : ((data.drop (data.length - FOOTER_SIZE)).drop 96).take 4 = MAGIC
    · rw [dif_pos hm, if_neg (by rw [← halign]; simpa using hm)]
      rfl
    · rw [dif_neg hm, if_pos (by rw [← halign]; simpa using hm)]
      rfl

/-- Every serialized `SignedFile` passes the fast detector. -/
lemma is_signed_to_bytes (s : SignedFile) :
    SignedFile.is_signed s.to_bytes = true := by
  have hlen := length_to_bytes s
  unfold SignedFile.is_signed
  rw [if_neg (by rw [FOOTER_SIZE_eq]; omega)]
  have hidx : s.to_bytes.length - 160 = s.content.length + 96 := by omega
  rw [hidx, ← List.drop_drop, to_bytes_drop_content, footer_magic]
  simp

/-- A 256-byte content that was never produced by signing yet carries the
magic marker at the detection offset (96 zero bytes, the marker, 156 zero
bytes). -/
def unsignedWithMagic : List Nat :=
  List.replicate 96 0 ++ MAGIC ++ List.replicate 156 0

/-- C7 counterexample: this raw, never-signed content is reported as signed by
`is_signed`, so "looksSigned(c) is false for every unsigned content c" fails
as stated. -/
theorem is_signed_false_positive :
    SignedFile.is_signed unsignedWithMagic = true := by decide

/-- C7 (amended): `is_signed` accepts every serialized signed artifact, and
rejects a content `d` whenever `d` is shorter than 256 bytes or the 4 bytes at
offset `len(d)-160` differ from the magic marker (rather than for every
unsigned `d`). -/
theorem is_signed_amended (E : Scheme) (c sk d : List Nat)
    (hd : d.length < 256 ∨ ¬ (d.drop (d.length - 160)).take 4 = MAGIC) :
    SignedFile.is_signed (SignedFile.to_bytes (SignedFile.sign E c sk)) = true
    ∧ SignedFile.is_signed d = false := by
  refine ⟨is_signed_to_bytes _, ?_⟩
  unfold SignedFile.is_signed
  rcases hd with hd | hd
  · rw [if_pos (show d.length < FOOTER_SIZE from hd)]
  · by_cases h : d.length < FOOTER_SIZE
    · rw [if_pos h]
    · rw [if_neg h]
      exact decide_eq_false hd

/-- Witness for C7 (amended) at the toy scheme and a short unsigned content. -/
theorem is_signed_amended_witness :
    SignedFile.is_signed
        (SignedFile.to_bytes
          (SignedFile.sign toyScheme [1, 2, 3] (List.replicate 32 5))) = true
    ∧ SignedFile.is_signed [0, 1, 2] = false :=
  is_signed_amended toyScheme [1, 2, 3] (List.replicate 32 5) [0, 1, 2]
    (Or.inl (by decide))

/-- C8: the fast detector and the parser agree — `is_signed` is exactly
`isSome` of `from_bytes` — and both are decided solely by the length bound and
the 4 magic bytes at absolute offset `len-160`. -/
theorem is_signed_iff_parses (data : List Nat) :
    SignedFile.is_signed data = (SignedFile.from_bytes data).isSome
    ∧ (SignedFile.is_signed data = true
        ↔ 256 ≤ data.length ∧ (data.drop (data.length - 160)).take 4 = MAGIC) := by
  constructor
  · unfold SignedFile.is_signed SignedFile.from_bytes
    by_cases h : data.length < FOOTER_SIZE
    · rw [if_pos h, dif_pos h]
      rfl
    · have halign := magic_offset_align data (Nat.le_of_not_lt h)
      rw [if_neg h, dif_neg h]
      by_cases hm : ((data.drop (data.length - FOOTER_SIZE)).drop 96).take 4 = MAGIC
      · rw [dif_pos hm, ← halign, hm]
        simp
      · rw [dif_neg hm, ← halign]
        exact decide_eq_false hm
  · unfold SignedFile.is_signed
    by_cases h : data.length < FOOTER_SIZE
    · rw [if_pos h]
      simp only [Bool.false_eq_true, false_iff, not_and]
      intro hle
      exact absurd (show data.length < 256 from h) (by omega)
    · rw [if_neg h]
      simp only [decide_eq_true_eq]
      constructor
      · intro hp
        exact ⟨Nat.le_of_not_lt (show ¬ data.length < 256 from h), hp⟩
      · intro hp
        exact hp.2

/-- Models a Rust range index `&data[lo..hi]`: `none` stands for the
out-of-bounds panic, which occurs unless `lo ≤ hi ≤ data.len()`. -/
def rustSlice (data : List Nat) (lo hi : Nat) : Option (List Nat) :=
  if lo ≤ hi ∧ hi ≤ data.length then
    some ((data.drop lo).take (hi - lo))
  else
    none

/-- Variant of `SignedFile::from_bytes` with every slicing operation bounds-checked as
Rust checks it at run time: `data[..content_len]`, `data[content_len..]`,
`footer[96..100]`, `footer[0..64]`, `footer[64..96]`, plus the
`copy_from_slice` length checks into the `[u8; 64]` and `[u8; 32]` buffers.
`none` means a panic; `some r` means the function returns `r` normally. -/
def from_bytes_checked (data : List Nat) : Option (Option SignedFile) :=
  if data.length < FOOTER_SIZE then
    some none
  else
    match rustSlice data 0 (data.length - FOOTER_SIZE) with
    | none => none
    | some content =>
      match rustSlice data (data.length - FOOTER_SIZE) data.length with
      | none => none
      | some footer =>
        match rustSlice footer 96 100 with
        | none => none
        | some magicBytes =>
          if magicBytes ≠ MAGIC then
            some none
          else
            match rustSlice footer 0 64 with
            | none => none
            | some sigBytes =>
              if hs : sigBytes.length = 64 then
                match rustSlice footer 64 96 with
                | none => none
                | some pkBytes =>
                  if hp : pkBytes.length = 32 then
                    some (some ⟨content, sigBytes, pkBytes, hs, hp⟩)
                  else
                    none
              else
                none

/-- C10: `from_bytes` is total — the bounds-checked run never panics and
returns exactly what the direct model returns, on every input length. -/
theorem from_bytes_total (data : List Nat) :
    from_bytes_checked data = some (SignedFile.from_bytes data) := by
  unfold from_bytes_checked SignedFile.from_bytes
  by_cases h : data.length < FOOTER_SIZE
  · rw [if_pos h, dif_pos h]
  · have h256 : FOOTER_SIZE ≤ data.length := Nat.le_of_not_lt h
    have hfoot_len : (data.drop (data.length - FOOTER_SIZE)).length = FOOTER_SIZE := by
      rw [List.length_drop]
      rw [FOOTER_SIZE_eq] at *
      omega
    have hs1 : rustSlice data 0 (data.length - FOOTER_SIZE)
        = some (data.take (data.length - FOOTER_SIZE)) := by
      unfold rustSlice
      rw [if_pos ⟨Nat.zero_le _, Nat.sub_le _ _⟩]
      simp
    have hs2 : rustSlice data (data.length - FOOTER_SIZE) data.length
        = some (data.drop (data.length - FOOTER_SIZE)) := by
      unfold rustSlice
      rw [if_pos ⟨Nat.sub_le _ _, Nat.le_refl _⟩]
      exact congrArg some (List.take_of_length_le (by rw [List.length_drop]))
    have hs3 : rustSlice (data.drop (data.length - FOOTER_SIZE)) 96 100
        = some (((data.drop (data.length - FOOTER_SIZE)).drop 96).take 4) := by
      unfold rustSlice
      rw [if_pos ⟨by omega, by rw [hfoot_len, FOOTER_SIZE_eq]; omega⟩]
    have hs4 : rustSlice (data.drop (data.length - FOOTER_SIZE)) 0 64
        = some ((data.drop (data.length - FOOTER_SIZE)).take 64) := by
      unfold rustSlice
      rw [if_pos ⟨by omega, by rw [hfoot_len, FOOTER_SIZE_eq]; omega⟩]
      simp
    have hs5 : rustSlice (data.drop (data.length - FOOTER_SIZE)) 64 96
        = some (((data.drop (data.length - FOOTER_SIZE)).drop 64).take 32) := by
      unfold rustSlice
      rw [if_pos ⟨by omega, by rw [hfoot_len, FOOTER_SIZE_eq]; omega⟩]
    have hsiglen : ((data.drop (data.length - FOOTER_SIZE)).take 64).length = 64 := by
      rw [List.length_take, hfoot_len, FOOTER_SIZE_eq]
      decide
    have hpklen : (((data.drop (data.length - FOOTER_SIZE)).drop 64).take 32).length
        = 32 := by
      rw [List.length_take, List.length_drop, hfoot_len, FOOTER_SIZE_eq]
      decide
    rw [if_neg h, dif_neg h]
    simp only [hs1, hs2, hs3, hs4, hs5]
    by_cases hm : ((data.drop (data.length - FOOTER_SIZE)).drop 96).take 4 = MAGIC
    · rw [if_neg (by simpa using hm), dif_pos hsiglen, dif_pos hpklen, dif_pos hm]
    · rw [if_pos (by simpa using hm), dif_neg hm]

/-- Outcome of one `sign_file` run after both `fs::read` calls succeeded. -/
inductive SignFileOutcome where
  | panicked
  | keyError
  | success (out : List Nat)
deriving DecidableEq

/-- Models the core of the `sign_file` binding after the two `fs::read` calls:
`SigningKey::from_bytes(&key_bytes[..32].try_into().map_err(.. "Invalid key")?)`
followed by `SignedFile::sign` and `to_bytes`.  `&key_bytes[..32]` panics when
the key file holds fewer than 32 bytes; `try_into` into `[u8; 32]` fails (the
"Invalid key" error) only when that slice is not exactly 32 bytes long. -/
def sign_file_model (E : Scheme) (content key_bytes : List Nat) :
    SignFileOutcome :=
  match rustSlice key_bytes 0 32 with
  | none => SignFileOutcome.panicked
  | some ks =>
    if ks.length = 32 then
      SignFileOutcome.success ((SignedFile.sign E content ks).to_bytes)
    else
      SignFileOutcome.keyError

/-- C6: contrary to the claim, `sign_file` does not fail with an error on
every key file whose length differs from 32 bytes: on a 31-byte key it panics
(the `key_bytes[..32]` slice is out of bounds), and on a 33-byte key it
silently succeeds, signing with the first 32 bytes. -/
theorem sign_file_key_length_bug :
    sign_file_model toyScheme [] (List.replicate 31 0) = SignFileOutcome.panicked
    ∧ sign_file_model toyScheme [] (List.replicate 33 0)
        = SignFileOutcome.success
            ((SignedFile.sign toyScheme [] (List.replicate 32 0)).to_bytes) := by
  constructor
  · rfl
  · rfl

end Elephant
